import Mathlib

/-!
# mysql-slave-log-info: the replica health handler and the configuration loader

A shallow embedding of `src/main.go`.

* `strconv.Atoi`, `database/sql` and `encoding/json` are library code.  The
  handler only observes their results, so the database is an input value
  (`Env`): whether `sql.Open` and `db.Query` fail, the declared column names,
  and for every iteration of `rows.Next()` the outcome of `rows.Scan`, the
  contents of the `values` buffer after the scan, and the outcome of
  `rows.Err()`.
* A `sql.RawBytes` value is a `Option String`: `none` is the nil slice of a SQL
  NULL, `some s` a non-nil slice (possibly empty).  Byte strings are `String`s;
  `strconv.Atoi` rejects every byte that is not an ASCII digit or a leading
  sign, so it rejects every character outside ASCII just the same.
* `rows.Columns()` may fail; its error is ignored by the handler and the column
  list is then empty, which is the case `cols = []`.
* `http.ResponseWriter` is append-only, so a run of the handler is the list of
  its observable steps in order (`Event`); the response body is the
  concatenation of the written chunks.  `fmt.Println` only logs to standard
  output and is not part of the response.
* Go `int` is the 64-bit two's complement integer; the only arithmetic on it is
  inside `strconv.Atoi`, which rejects what does not fit.
-/

namespace SlaveLogInfo

/-! ## strconv.Atoi -/

/-- Value of one byte of a decimal literal: the loop body `ch -= '0'; if ch > 9`
of `strconv.Atoi` and `strconv.ParseUint`. -/
def digitVal (c : Char) : Option Nat :=
  if 48 ≤ c.toNat ∧ c.toNat ≤ 57 then some (c.toNat - 48) else none

/-- Accumulates a run of decimal digits into `n`; `none` at the first byte that
is not a digit. -/
def parseDigits : List Char → Nat → Option Nat
  | [], n => some n
  | c :: cs, n =>
    match digitVal c with
    | none => none
    | some d => parseDigits cs (n * 10 + d)

/-- Bound `1 << 63` used by `strconv.ParseInt` for a 64-bit `int`. -/
def intCutoff : Nat := 9223372036854775808

/-- Go `strconv.Atoi` on a 64-bit platform, `none` standing for a non-nil
error: an optional single sign, then at least one decimal digit and nothing
else, the signed value lying in `[-2^63, 2^63 - 1]`. -/
def Atoi (s : String) : Option Int :=
  match s.data with
  | [] => none
  | c :: cs =>
    let digits := if c = '-' ∨ c = '+' then cs else c :: cs
    match digits with
    | [] => none
    | d :: ds =>
      match parseDigits (d :: ds) 0 with
      | none => none
      | some n =>
        if c = '-' then
          (if n ≤ intCutoff then some (-(n : Int)) else none)
        else
          (if n < intCutoff then some (n : Int) else none)

/-! ## Data model -/

/-- Go struct `MysqlSlaveInfo` (lines 24-32). -/
structure MysqlSlaveInfo where
  MasterLogFile : String
  SlaveIORunning : String
  SlaveSQLRunning : String
  SecondsBehindMaster : Int
  LastErrno : Int
  LastIOErrno : Int
  LastSQLErrno : Int
deriving DecidableEq, Repr

/-- The composite literal `MysqlSlaveInfo{}` of line 68: every field at its
zero value. -/
def MysqlSlaveInfo.zero : MysqlSlaveInfo := ⟨"", "", "", 0, 0, 0, 0⟩

/-- One iteration of `for rows.Next()`, as the handler observes it. -/
structure Row where
  /-- Says whether `rows.Scan(scanArgs...)` returned a non-nil error (line 70). -/
  scanErr : Bool
  /-- Contents of the `values` buffer after the call to `rows.Scan`. -/
  values : List (Option String)
  /-- Says whether `rows.Err()` returned a non-nil error (line 116). -/
  iterErr : Bool
deriving DecidableEq, Repr

/-- A successful `db.Query`: the declared column names and the rows that
`rows.Next()` delivers. -/
structure Rows where
  cols : List String
  rows : List Row
deriving DecidableEq, Repr

/-- A successful `sql.Open`: `Query = none` when `db.Query` returns an error. -/
structure Conn where
  Query : Option Rows
deriving DecidableEq, Repr

/-- The database as one request sees it: `Open = none` when `sql.Open` returns
an error. -/
structure Env where
  Open : Option Conn
deriving DecidableEq, Repr

/-- Observable steps of one run of `handlerWriter`, in program order. -/
inductive Event where
  /-- The call `sql.Open("mysql", dsn)` of line 45. -/
  | sqlOpen
  /-- The call `db.Query("SHOW SLAVE STATUS")` of line 53. -/
  | dbQuery
  /-- A call `w.Write([]byte(b))`. -/
  | write (b : String)
  /-- The condition of lines 121-125 is evaluated on the record `si`. -/
  | predicate (si : MysqlSlaveInfo)
deriving DecidableEq, Repr

/-! ## handlerWriter -/

/-- Body of the column loop for one column (lines 77-114): `c` is `cols[i]`,
the third argument is `values[i]`.  `none` is a failed `strconv.Atoi`, after
which the handler writes `"err: convert"` and returns. -/
def assignColumn (si : MysqlSlaveInfo) (c : String) : Option String → Option MysqlSlaveInfo
  | none => some si
  | some v =>
    if c = "Master_Log_File" then some { si with MasterLogFile := v }
    else if c = "Slave_IO_Running" then some { si with SlaveIORunning := v }
    else if c = "Slave_SQL_Running" then some { si with SlaveSQLRunning := v }
    else if c = "Seconds_Behind_Master" then
      (Atoi v).map fun n => { si with SecondsBehindMaster := n }
    else if c = "Last_IO_Errno" then
      (Atoi v).map fun n => { si with LastIOErrno := n }
    else if c = "Last_SQL_Errno" then
      (Atoi v).map fun n => { si with LastSQLErrno := n }
    else if c = "Last_Errno" then
      (Atoi v).map fun n => { si with LastErrno := n }
    else some si

/-- The loop `for i, col := range values` (lines 76-115) over the pairs
`(cols[i], values[i])`, stopping at the first failed conversion. -/
def columnLoop : MysqlSlaveInfo → List (String × Option String) → Option MysqlSlaveInfo
  | si, [] => some si
  | si, (c, v) :: rest =>
    match assignColumn si c v with
    | none => none
    | some si' => columnLoop si' rest

/-- The condition of lines 121-125. -/
def healthy (si : MysqlSlaveInfo) : Bool :=
  si.SlaveIORunning = "Yes" && si.SlaveSQLRunning = "Yes" &&
    si.SecondsBehindMaster = 0 && si.LastIOErrno = 0 && si.LastSQLErrno = 0

/-- The chunk written by lines 121-129. -/
def verdict (si : MysqlSlaveInfo) : String :=
  if healthy si then si.MasterLogFile else "err: server not ready"

/-- The loop `for rows.Next()` (lines 69-131).  `si` is the variable
`slaveInfo`, declared before the loop and carried from one row to the next.
`values` has `len(cols)` entries (line 63), so the column loop runs over
`cols.zip r.values`. -/
def rowLoop (cols : List String) : MysqlSlaveInfo → List Row → List Event
  | _, [] => []
  | si, r :: rest =>
    (if r.scanErr then [Event.write "err: row scan"] else []) ++
    match columnLoop si (cols.zip r.values) with
    | none => [Event.write "err: convert"]
    | some si' =>
      (if r.iterErr then [Event.write "err: getting rows"] else []) ++
      (Event.predicate si' :: Event.write (verdict si') :: rowLoop cols si' rest)

/-- The method `SlaveInfoSender.handlerWriter` (lines 44-132). -/
def handlerWriter (env : Env) : List Event :=
  Event.sqlOpen ::
  match env.Open with
  | none => [Event.write "err: connection"]
  | some db =>
    Event.dbQuery ::
    match db.Query with
    | none => [Event.write "err: query"]
    | some rs => rowLoop rs.cols MysqlSlaveInfo.zero rs.rows

/-- The chunks passed to `w.Write`, in order. -/
def writes : List Event → List String
  | [] => []
  | Event.write b :: es => b :: writes es
  | _ :: es => writes es

/-- The complete response body: the written chunks, concatenated. -/
def body (es : List Event) : String :=
  String.join (writes es)

/-- The records on which the health condition was evaluated, in order. -/
def predicateRecords : List Event → List MysqlSlaveInfo
  | [] => []
  | Event.predicate si :: es => si :: predicateRecords es
  | _ :: es => predicateRecords es

/-- A request whose connection opens and whose query returns `rs`. -/
def Env.ofRows (rs : Rows) : Env := ⟨some ⟨some rs⟩⟩

/-- A request whose query returns one row. -/
def Env.oneRow (cols : List String) (r : Row) : Env := Env.ofRows ⟨cols, [r]⟩

/-! ## Vocabulary of the specification -/

/-- The seven column names of the `switch` of line 78. -/
def recognisedCols : List String :=
  ["Master_Log_File", "Slave_IO_Running", "Slave_SQL_Running",
   "Seconds_Behind_Master", "Last_IO_Errno", "Last_SQL_Errno", "Last_Errno"]

/-- The four recognised columns converted with `strconv.Atoi`. -/
def numericCols : List String :=
  ["Seconds_Behind_Master", "Last_IO_Errno", "Last_SQL_Errno", "Last_Errno"]

/-- Value of the column `name` in a row: `none` when the column is absent or its
value is NULL. -/
def columnValue (cols : List String) (values : List (Option String)) (name : String) :
    Option String :=
  ((cols.zip values).lookup name).join

/-- A text column, an absent or NULL column counting as the empty string. -/
def textColumn (cols : List String) (values : List (Option String)) (name : String) : String :=
  (columnValue cols values name).getD ""

/-- An integer column, an absent or NULL column counting as `0`. -/
def intColumn (cols : List String) (values : List (Option String)) (name : String) : Int :=
  ((columnValue cols values name).bind Atoi).getD 0

/-- Every non-NULL value of the four numeric columns converts with
`strconv.Atoi`. -/
def ValidNumbers (cols : List String) (values : List (Option String)) : Prop :=
  ∀ name ∈ numericCols, ∀ v, (name, some v) ∈ cols.zip values → (Atoi v).isSome = true

/-- The fixed strings of the HTTP interface together with a log file name. -/
def allowedBodies (logFile : String) : List String :=
  [logFile, "err: connection", "err: query", "err: row scan", "err: convert",
   "err: getting rows", "err: server not ready"]

/-- Column `name` is absent from the row or NULL in it: no pair of the row
carries a value under that name. -/
def AbsentOrNull (cols : List String) (values : List (Option String)) (name : String) : Prop :=
  ∀ p ∈ cols.zip values, p.1 = name → p.2 = none

instance (cols : List String) (values : List (Option String)) (name : String) :
    Decidable (AbsentOrNull cols values name) := by
  unfold AbsentOrNull; infer_instance

/-- Every field of `si` whose column is absent or NULL in the row holds the
value it has in `prev`. -/
def KeptWhenAbsent (cols : List String) (values : List (Option String))
    (prev si : MysqlSlaveInfo) : Prop :=
  (AbsentOrNull cols values "Master_Log_File" → si.MasterLogFile = prev.MasterLogFile) ∧
  (AbsentOrNull cols values "Slave_IO_Running" → si.SlaveIORunning = prev.SlaveIORunning) ∧
  (AbsentOrNull cols values "Slave_SQL_Running" → si.SlaveSQLRunning = prev.SlaveSQLRunning) ∧
  (AbsentOrNull cols values "Seconds_Behind_Master" →
    si.SecondsBehindMaster = prev.SecondsBehindMaster) ∧
  (AbsentOrNull cols values "Last_Errno" → si.LastErrno = prev.LastErrno) ∧
  (AbsentOrNull cols values "Last_IO_Errno" → si.LastIOErrno = prev.LastIOErrno) ∧
  (AbsentOrNull cols values "Last_SQL_Errno" → si.LastSQLErrno = prev.LastSQLErrno)

/-- The invariant of the data model as the specification words it: whenever
the health condition is evaluated for the `k`-th row, every field whose column
is absent or NULL in that row holds its zero value. -/
def RecordFromRowOnly (rs : Rows) : Prop :=
  ∀ (k : Nat) (r : Row) (si : MysqlSlaveInfo),
    rs.rows[k]? = some r →
    (predicateRecords (handlerWriter (Env.ofRows rs)))[k]? = some si →
    KeptWhenAbsent rs.cols r.values MysqlSlaveInfo.zero si

/-- A value of `Last_Errno` that is NULL or converts with `strconv.Atoi`. -/
def okErrno : Option String → Prop
  | none => True
  | some v => (Atoi v).isSome = true

instance (x : Option String) : Decidable (okErrno x) := by
  cases x with
  | none => exact isTrue trivial
  | some v => unfold okErrno; infer_instance

/-- Two rows over the same columns that are identical except for the values of
the `Last_Errno` column, those being NULL or valid integers: a relation on the
pairs `(cols[i], values[i])` of the two rows. -/
def SameExceptLastErrno (p q : String × Option String) : Prop :=
  p.1 = q.1 ∧ (if p.1 = "Last_Errno" then okErrno p.2 ∧ okErrno q.2 else p.2 = q.2)

instance (p q : String × Option String) : Decidable (SameExceptLastErrno p q) := by
  unfold SameExceptLastErrno; infer_instance

/-- Two records that agree on every field except `LastErrno`. -/
def AgreeExceptLastErrno (s t : MysqlSlaveInfo) : Prop :=
  { s with LastErrno := 0 } = { t with LastErrno := 0 }

/-- The recognised columns of a row with their values, in column order. -/
def recognisedPart (cols : List String) (values : List (Option String)) :
    List (String × Option String) :=
  (cols.zip values).filter (fun p => decide (p.1 ∈ recognisedCols))

/-- Two rows, over possibly different declared columns, with the same scan and
iteration outcomes and the same recognised columns and values: they differ only
by unrecognised columns added, removed or changed at any position. -/
def SameRecognised (cols1 cols2 : List String) (r1 r2 : Row) : Prop :=
  r1.scanErr = r2.scanErr ∧ r1.iterErr = r2.iterErr ∧
    recognisedPart cols1 r1.values = recognisedPart cols2 r2.values

/-! ## Configuration loading -/

/-- Go struct `AppConfiguration` (lines 17-21). -/
structure AppConfiguration where
  Address : String
  Port : Int
  MysqlDSN : String
deriving DecidableEq, Repr

/-- The literal that `main` passes to `NewSlaveInfoSender` (lines 138-142). -/
def defaultConfig : AppConfiguration :=
  ⟨"127.0.0.1", 12345, "root:123456@tcp(127.0.0.1:3306)/"⟩

/-- A JSON value as `encoding/json` meets it while filling a struct whose
fields are strings and integers: a number is kept as its literal text, a string
as its unquoted text, and the contents of arrays and objects do not matter. -/
inductive JsonValue where
  | null
  | bool (b : Bool)
  | number (literal : String)
  | string (s : String)
  | array
  | object
deriving DecidableEq, Repr

/-- The three fields of `AppConfiguration`. -/
inductive ConfigField where
  | Address
  | Port
  | MysqlDSN
deriving DecidableEq, Repr

/-- The `json:"..."` tag of each field (lines 18-20). -/
def ConfigField.tag : ConfigField → String
  | ConfigField.Address => "address"
  | ConfigField.Port => "port"
  | ConfigField.MysqlDSN => "mysql-dsn"

/-- Case folding of `encoding/json` for one rune, exact on ASCII: a lower case
ASCII letter folds to upper case, and the only two runes outside ASCII whose
fold is an ASCII letter are U+017F (to `S`) and U+212A (to `K`).  Every other
rune outside ASCII folds to a rune outside ASCII, which is all that matters
when a key is compared with the three ASCII tags. -/
def foldRune (c : Char) : Char :=
  if 97 ≤ c.toNat ∧ c.toNat ≤ 122 then Char.ofNat (c.toNat - 32)
  else if c.toNat = 383 then Char.ofNat 83
  else if c.toNat = 8490 then Char.ofNat 75
  else c

/-- The folded form of a name. -/
def foldName (s : String) : List Char := s.data.map foldRune

/-- The struct field that `encoding/json` selects for an object key: a field
whose tag is the key, or else a field whose tag equals it under case folding;
`none` when the key is unknown, in which case its value is skipped. -/
def findField (key : String) : Option ConfigField :=
  match [ConfigField.Address, ConfigField.Port, ConfigField.MysqlDSN].find?
      (fun f => decide (f.tag = key)) with
  | some f => some f
  | none =>
    [ConfigField.Address, ConfigField.Port, ConfigField.MysqlDSN].find?
      (fun f => decide (foldName f.tag = foldName key))

/-- Storing one JSON value into one field.  `null` leaves a string or integer
field as it is; a string goes into a string field; a number goes into the
integer field when `strconv.ParseInt(literal, 10, 64)` accepts it, which is
`Atoi` for the 64-bit `int`; anything else is an `UnmarshalTypeError`
(`none`). -/
def decodeField (cfg : AppConfiguration) : ConfigField → JsonValue → Option AppConfiguration
  | _, JsonValue.null => some cfg
  | ConfigField.Address, JsonValue.string s => some { cfg with Address := s }
  | ConfigField.MysqlDSN, JsonValue.string s => some { cfg with MysqlDSN := s }
  | ConfigField.Port, JsonValue.number lit => (Atoi lit).map fun n => { cfg with Port := n }
  | _, _ => none

/-- The call `decoder.Decode(&sis.config)` of line 149 on a file that holds a
JSON object, given as its members in file order.  The pointer is not nil, so
the decoder fills the existing struct member by member; `none` is a non-nil
error, on which `main` panics. -/
def Decode (cfg : AppConfiguration) : List (String × JsonValue) → Option AppConfiguration
  | [] => some cfg
  | (k, v) :: rest =>
    match findField k with
    | none => Decode cfg rest
    | some f =>
      match decodeField cfg f v with
      | none => none
      | some cfg' => Decode cfg' rest

/-- Lines 138-153 of `main`: `file = none` when `os.Open` fails, and then the
defaults stay; otherwise the members of the JSON object in the file are
decoded over the defaults.  `none` is the panic of line 151. -/
def loadConfig (file : Option (List (String × JsonValue))) : Option AppConfiguration :=
  match file with
  | none => some defaultConfig
  | some members => Decode defaultConfig members

/-- The value that the file gives for `key`: the value of the last member with
that key, `none` when the key is absent. -/
def lastValue (key : String) : List (String × JsonValue) → Option JsonValue
  | [] => none
  | (k, v) :: rest =>
    match lastValue key rest with
    | some w => some w
    | none => if k = key then some v else none

/-- A member of a config file that follows the documented shape: the key is
`address` or `mysql-dsn` with a string value, or `port` with an integer
value that fits the `int` type. -/
def conforms (p : String × JsonValue) : Bool :=
  if p.1 = "address" ∨ p.1 = "mysql-dsn" then
    (match p.2 with
      | JsonValue.string _ => true
      | _ => false)
  else if p.1 = "port" then
    (match p.2 with
      | JsonValue.number lit => (Atoi lit).isSome
      | _ => false)
  else false

/-! ## Basic lemmas -/

theorem writes_append (a b : List Event) : writes (a ++ b) = writes a ++ writes b := by
  induction a with
  | nil => rfl
  | cons e es ih => cases e <;> simp [writes, ih]

theorem predicateRecords_append (a b : List Event) :
    predicateRecords (a ++ b) = predicateRecords a ++ predicateRecords b := by
  induction a with
  | nil => rfl
  | cons e es ih => cases e <;> simp [predicateRecords, ih]

theorem join_singleton (b : String) : String.join [b] = b := by
  simp [String.join]

theorem writes_handlerWriter_ofRows (rs : Rows) :
    writes (handlerWriter (Env.ofRows rs)) = writes (rowLoop rs.cols MysqlSlaveInfo.zero rs.rows) := by
  simp [handlerWriter, Env.ofRows, writes]

theorem predicateRecords_handlerWriter_ofRows (rs : Rows) :
    predicateRecords (handlerWriter (Env.ofRows rs)) =
      predicateRecords (rowLoop rs.cols MysqlSlaveInfo.zero rs.rows) := by
  simp [handlerWriter, Env.ofRows, predicateRecords]

/-- A NULL value leaves the record as it is. -/
theorem assignColumn_null (si : MysqlSlaveInfo) (c : String) :
    assignColumn si c none = some si := rfl

/-- A column that is not recognised leaves the record as it is. -/
theorem assignColumn_unrecognised (si : MysqlSlaveInfo) (c : String) (v : Option String)
    (h : c ∉ recognisedCols) : assignColumn si c v = some si := by
  cases v with
  | none => rfl
  | some v =>
    simp only [recognisedCols, List.mem_cons, List.mem_singleton, List.not_mem_nil,
      not_or, or_false] at h
    obtain ⟨h1, h2, h3, h4, h5, h6, h7⟩ := h
    simp [assignColumn, h1, h2, h3, h4, h5, h6, h7]

/-- A non-NULL value of a column that is not numeric never fails. -/
theorem assignColumn_isSome_of_not_numeric (si : MysqlSlaveInfo) (c : String) (v : Option String)
    (h : c ∉ numericCols) : ∃ si', assignColumn si c v = some si' := by
  cases v with
  | none => exact ⟨si, rfl⟩
  | some v =>
    simp only [numericCols, List.mem_cons, List.mem_singleton, List.not_mem_nil,
      not_or, or_false] at h
    obtain ⟨h4, h5, h6, h7⟩ := h
    unfold assignColumn
    simp only [h4, h5, h6, h7, if_false]
    split_ifs <;> exact ⟨_, rfl⟩

/-- A non-NULL value of a numeric column is assigned exactly when it converts. -/
theorem assignColumn_numeric (si : MysqlSlaveInfo) (c v : String) (h : c ∈ numericCols) :
    (assignColumn si c (some v)).isSome = (Atoi v).isSome := by
  simp only [numericCols, List.mem_cons, List.mem_singleton, List.not_mem_nil, or_false] at h
  rcases h with h | h | h | h <;> subst h <;> simp [assignColumn]

/-- The column loop completes when every numeric value converts. -/
theorem columnLoop_isSome (l : List (String × Option String)) :
    ∀ si : MysqlSlaveInfo,
      (∀ name ∈ numericCols, ∀ v, (name, some v) ∈ l → (Atoi v).isSome = true) →
      ∃ si', columnLoop si l = some si' := by
  induction l with
  | nil => intro si _; exact ⟨si, rfl⟩
  | cons p rest ih =>
    intro si h
    obtain ⟨c, v⟩ := p
    have hstep : ∃ si1, assignColumn si c v = some si1 := by
      by_cases hc : c ∈ numericCols
      · cases v with
        | none => exact ⟨si, rfl⟩
        | some v =>
          have h1 := assignColumn_numeric si c v hc
          rw [h c hc v (List.mem_cons_self _ _)] at h1
          exact Option.isSome_iff_exists.mp h1
      · exact assignColumn_isSome_of_not_numeric si c v hc
    obtain ⟨si1, h1⟩ := hstep
    obtain ⟨si2, h2⟩ := ih si1 (fun name hn w hw => h name hn w (List.mem_cons_of_mem _ hw))
    exact ⟨si2, by simp [columnLoop, h1, h2]⟩

/-- The column loop fails as soon as one numeric value does not convert. -/
theorem columnLoop_eq_none (l : List (String × Option String)) :
    ∀ si : MysqlSlaveInfo,
      (∃ name ∈ numericCols, ∃ v, (name, some v) ∈ l ∧ Atoi v = none) →
      columnLoop si l = none := by
  induction l with
  | nil => intro si h; obtain ⟨_, _, _, hm, _⟩ := h; cases hm
  | cons p rest ih =>
    intro si h
    obtain ⟨c, v⟩ := p
    obtain ⟨name, hn, w, hm, hw⟩ := h
    cases hstep : assignColumn si c v with
    | none => simp [columnLoop, hstep]
    | some si1 =>
      simp only [columnLoop, hstep]
      rcases List.mem_cons.mp hm with heq | hrest
      · exfalso
        injection heq with e1 e2
        subst e1; subst e2
        have h1 := assignColumn_numeric si name w hn
        rw [hstep, hw] at h1
        cases h1
      · exact ih si1 ⟨name, hn, w, hrest, hw⟩

/-! ## Rows read without error -/

/-- Writes of the row loop on a list of rows read without error whose numeric
values all convert: one verdict for each row, computed on the record carried
so far. -/
theorem rowLoop_clean (cols : List String) (rows : List Row) :
    ∀ si : MysqlSlaveInfo,
      (∀ r ∈ rows, r.scanErr = false ∧ r.iterErr = false ∧ ValidNumbers cols r.values) →
      (writes (rowLoop cols si rows)).length = rows.length ∧
      (predicateRecords (rowLoop cols si rows)).length = rows.length ∧
      writes (rowLoop cols si rows) = (predicateRecords (rowLoop cols si rows)).map verdict := by
  induction rows with
  | nil => intro si _; simp [rowLoop, writes, predicateRecords]
  | cons r rest ih =>
    intro si h
    obtain ⟨hs, hi, hv⟩ := h r (List.mem_cons_self _ _)
    obtain ⟨si1, h1⟩ := columnLoop_isSome (cols.zip r.values) si hv
    obtain ⟨ih1, ih2, ih3⟩ := ih si1 (fun r' hr' => h r' (List.mem_cons_of_mem _ hr'))
    simp [rowLoop, hs, hi, h1, writes, predicateRecords, ih1, ih2, ih3]

/-- Claim C5: when the connection opens and the query succeeds but delivers no
row, whatever the declared columns are, the handler calls `w.Write` not even
once and the response body is empty. -/
theorem handlerWriter_no_rows (cols : List String) :
    writes (handlerWriter (Env.ofRows ⟨cols, []⟩)) = [] ∧
    body (handlerWriter (Env.ofRows ⟨cols, []⟩)) = "" := by
  constructor
  · rfl
  · rfl

/-- Claim C9: a failure before row processing writes the fixed string of the
failed step and nothing else.  When `sql.Open` fails the run is the call to
`sql.Open` followed by the single write `"err: connection"`, so `db.Query` is
never called; when `db.Query` fails the single write is `"err: query"`. -/
theorem handlerWriter_early_failure :
    handlerWriter ⟨none⟩ = [Event.sqlOpen, Event.write "err: connection"] ∧
    Event.dbQuery ∉ handlerWriter ⟨none⟩ ∧
    writes (handlerWriter ⟨none⟩) = ["err: connection"] ∧
    body (handlerWriter ⟨none⟩) = "err: connection" ∧
    handlerWriter ⟨some ⟨none⟩⟩ = [Event.sqlOpen, Event.dbQuery, Event.write "err: query"] ∧
    writes (handlerWriter ⟨some ⟨none⟩⟩) = ["err: query"] ∧
    body (handlerWriter ⟨some ⟨none⟩⟩) = "err: query" := by
  refine ⟨rfl, by decide, rfl, by decide, rfl, rfl, by decide⟩

/-- Claim C4: for a single row scanned without error in which some non-NULL
value of a numeric column does not convert with `strconv.Atoi`, the only write
is `"err: convert"`: the health condition is never evaluated, and neither the
log file name nor `"err: server not ready"` is written. -/
theorem handlerWriter_convert_error (cols : List String) (values : List (Option String))
    (iterErr : Bool)
    (h : ∃ name ∈ numericCols, ∃ v, (name, some v) ∈ cols.zip values ∧ Atoi v = none) :
    writes (handlerWriter (Env.oneRow cols ⟨false, values, iterErr⟩)) = ["err: convert"] ∧
    body (handlerWriter (Env.oneRow cols ⟨false, values, iterErr⟩)) = "err: convert" ∧
    predicateRecords (handlerWriter (Env.oneRow cols ⟨false, values, iterErr⟩)) = [] := by
  have hw : writes (handlerWriter (Env.oneRow cols ⟨false, values, iterErr⟩)) = ["err: convert"] := by
    simp [Env.oneRow, writes_handlerWriter_ofRows, rowLoop,
      columnLoop_eq_none (cols.zip values) MysqlSlaveInfo.zero h, writes]
  refine ⟨hw, ?_, ?_⟩
  · rw [body, hw, join_singleton]
  · simp [Env.oneRow, predicateRecords_handlerWriter_ofRows, rowLoop,
      columnLoop_eq_none (cols.zip values) MysqlSlaveInfo.zero h, predicateRecords]

/-- Witness for C4: the row of the specification whose `Seconds_Behind_Master`
is `"notanumber"`. -/
theorem handlerWriter_convert_error_witness :
    body (handlerWriter (Env.oneRow
      ["Master_Log_File", "Slave_IO_Running", "Slave_SQL_Running", "Seconds_Behind_Master",
       "Last_IO_Errno", "Last_SQL_Errno"]
      ⟨false, [some "mysql-bin.000123", some "Yes", some "Yes", some "notanumber",
        some "0", some "0"], false⟩)) = "err: convert" :=
  (handlerWriter_convert_error _ _ false
    ⟨"Seconds_Behind_Master", by decide, "notanumber", by decide, by decide⟩).2.1

/-- Claim C10: for `n` rows, all read without scan or iteration error and with
numeric values that convert, the handler makes exactly `n` writes, in row
order: the write of a row is the verdict on the record at that row, that is its
`MasterLogFile` or `"err: server not ready"`, and the body is the concatenation
of the `n` verdicts. -/
theorem handlerWriter_one_write_per_row (cols : List String) (rows : List Row)
    (h : ∀ r ∈ rows, r.scanErr = false ∧ r.iterErr = false ∧ ValidNumbers cols r.values) :
    (writes (handlerWriter (Env.ofRows ⟨cols, rows⟩))).length = rows.length ∧
    (predicateRecords (handlerWriter (Env.ofRows ⟨cols, rows⟩))).length = rows.length ∧
    writes (handlerWriter (Env.ofRows ⟨cols, rows⟩)) =
      (predicateRecords (handlerWriter (Env.ofRows ⟨cols, rows⟩))).map verdict ∧
    (∀ w ∈ writes (handlerWriter (Env.ofRows ⟨cols, rows⟩)),
      w = "err: server not ready" ∨
      ∃ si ∈ predicateRecords (handlerWriter (Env.ofRows ⟨cols, rows⟩)),
        healthy si = true ∧ w = si.MasterLogFile) ∧
    body (handlerWriter (Env.ofRows ⟨cols, rows⟩)) =
      String.join ((predicateRecords (handlerWriter (Env.ofRows ⟨cols, rows⟩))).map verdict) := by
  obtain ⟨h1, h2, h3⟩ := rowLoop_clean cols rows MysqlSlaveInfo.zero h
  rw [writes_handlerWriter_ofRows, predicateRecords_handlerWriter_ofRows] at *
  refine ⟨h1, h2, h3, ?_, ?_⟩
  · intro w hw
    rw [h3] at hw
    obtain ⟨si, hsi, rfl⟩ := List.mem_map.mp hw
    by_cases hh : healthy si = true
    · exact Or.inr ⟨si, hsi, hh, by simp [verdict, hh]⟩
    · exact Or.inl (by simp [verdict, hh])
  · rw [body, writes_handlerWriter_ofRows, h3]

/-! ## Fields of the record after the column loop -/

/-- A Boolean test that implies `ValidNumbers`, for evaluating concrete rows. -/
theorem validNumbers_of_all (cols : List String) (values : List (Option String))
    (h : (cols.zip values).all (fun p =>
      match p.2 with
      | none => true
      | some v => decide (p.1 ∉ numericCols) || (Atoi v).isSome) = true) :
    ValidNumbers cols values := by
  intro name hn v hv
  have h1 := List.all_eq_true.mp h (name, some v) hv
  simpa [hn] using h1

/-- The column loop runs through the pairs one by one. -/
theorem columnLoop_cons_eq_some (si si' : MysqlSlaveInfo) (c : String) (v : Option String)
    (rest : List (String × Option String)) (h : columnLoop si ((c, v) :: rest) = some si') :
    ∃ si1, assignColumn si c v = some si1 ∧ columnLoop si1 rest = some si' := by
  cases h1 : assignColumn si c v with
  | none => simp [columnLoop, h1] at h
  | some si1 => exact ⟨si1, rfl, by simpa [columnLoop, h1] using h⟩

/-- A field that only its own column assigns is left alone by a row in which
that column has no non-NULL value. -/
theorem columnLoop_keep {α : Type} (name : String) (get : MysqlSlaveInfo → α)
    (hother : ∀ si c v si', c ≠ name → assignColumn si c v = some si' → get si' = get si) :
    ∀ (l : List (String × Option String)) (si si' : MysqlSlaveInfo),
      (∀ v, (name, some v) ∉ l) → columnLoop si l = some si' → get si' = get si := by
  intro l
  induction l with
  | nil => intro si si' _ h; simp [columnLoop] at h; rw [h]
  | cons p rest ih =>
    intro si si' hno h
    obtain ⟨c, v⟩ := p
    obtain ⟨si1, h1, h2⟩ := columnLoop_cons_eq_some si si' c v rest h
    have hrest : get si' = get si1 :=
      ih si1 si' (fun w hw => hno w (List.mem_cons_of_mem _ hw)) h2
    rw [hrest]
    cases v with
    | none => simp [assignColumn] at h1; rw [h1]
    | some x =>
      have hc : c ≠ name := by
        intro hc
        exact hno x (by rw [hc]; exact List.mem_cons_self _ _)
      exact hother si c (some x) si1 hc h1

/-- Value of a field after the column loop over a row in which its column
occurs at most once: the decoded value of the column, or the previous value of
the field when the column is absent or NULL. -/
theorem columnLoop_field {α : Type} (name : String) (get : MysqlSlaveInfo → α)
    (decode : String → Option α)
    (hother : ∀ si c v si', c ≠ name → assignColumn si c v = some si' → get si' = get si)
    (hset : ∀ si v si', assignColumn si name (some v) = some si' → decode v = some (get si')) :
    ∀ (l : List (String × Option String)) (si si' : MysqlSlaveInfo),
      (l.map Prod.fst).count name ≤ 1 → columnLoop si l = some si' →
      get si' = (((l.lookup name).join).bind decode).getD (get si) := by
  intro l
  induction l with
  | nil => intro si si' _ h; simp [columnLoop] at h; simp [h]
  | cons p rest ih =>
    intro si si' hcount h
    obtain ⟨c, v⟩ := p
    obtain ⟨si1, h1, h2⟩ := columnLoop_cons_eq_some si si' c v rest h
    by_cases hc : c = name
    · subst hc
      have hnot : c ∉ rest.map Prod.fst := by
        intro hm
        have := List.count_pos_iff.mpr hm
        simp at hcount
        omega
      have hkeep : get si' = get si1 :=
        columnLoop_keep c get hother rest si1 si'
          (fun w hw => hnot (List.mem_map.mpr ⟨(c, some w), hw, rfl⟩)) h2
      cases v with
      | none =>
        simp [assignColumn] at h1
        simp [List.lookup, hkeep, h1]
      | some x =>
        have := hset si x si1 h1
        simp [List.lookup, hkeep, this]
    · have hcount1 : (rest.map Prod.fst).count name ≤ 1 := by
        simp [List.count_cons, hc] at hcount
        exact hcount
      have hne : (name == c) = false := by
        simp; exact fun h => hc h.symm
      rw [ih si1 si' hcount1 h2, hother si c v si1 hc h1]
      simp [List.lookup, hne]

/-- The names paired by `zip` are among the declared columns, in order. -/
theorem map_fst_zip_sublist (cols : List String) :
    ∀ values : List (Option String), ((cols.zip values).map Prod.fst).Sublist cols := by
  induction cols with
  | nil => intro values; simp
  | cons c cs ih =>
    intro values
    cases values with
    | nil => simp
    | cons v vs => simpa using (ih vs).cons₂ c

/-! ## Which column assigns which field -/

theorem other_MasterLogFile (si : MysqlSlaveInfo) (c : String) (v : Option String)
    (si' : MysqlSlaveInfo) (hc : c ≠ "Master_Log_File") (h : assignColumn si c v = some si') :
    si'.MasterLogFile = si.MasterLogFile := by
  cases v with
  | none => simp [assignColumn] at h; rw [← h]
  | some x =>
    unfold assignColumn at h
    split_ifs at h <;> first
      | contradiction
      | (cases hA : Atoi x <;> simp [hA] at h <;> rw [← h])

theorem other_SlaveIORunning (si : MysqlSlaveInfo) (c : String) (v : Option String)
    (si' : MysqlSlaveInfo) (hc : c ≠ "Slave_IO_Running") (h : assignColumn si c v = some si') :
    si'.SlaveIORunning = si.SlaveIORunning := by
  cases v with
  | none => simp [assignColumn] at h; rw [← h]
  | some x =>
    unfold assignColumn at h
    split_ifs at h <;> first
      | contradiction
      | (cases hA : Atoi x <;> simp [hA] at h <;> rw [← h])

theorem other_SlaveSQLRunning (si : MysqlSlaveInfo) (c : String) (v : Option String)
    (si' : MysqlSlaveInfo) (hc : c ≠ "Slave_SQL_Running") (h : assignColumn si c v = some si') :
    si'.SlaveSQLRunning = si.SlaveSQLRunning := by
  cases v with
  | none => simp [assignColumn] at h; rw [← h]
  | some x =>
    unfold assignColumn at h
    split_ifs at h <;> first
      | contradiction
      | (cases hA : Atoi x <;> simp [hA] at h <;> rw [← h])

theorem other_SecondsBehindMaster (si : MysqlSlaveInfo) (c : String) (v : Option String)
    (si' : MysqlSlaveInfo) (hc : c ≠ "Seconds_Behind_Master")
    (h : assignColumn si c v = some si') :
    si'.SecondsBehindMaster = si.SecondsBehindMaster := by
  cases v with
  | none => simp [assignColumn] at h; rw [← h]
  | some x =>
    unfold assignColumn at h
    split_ifs at h <;> first
      | contradiction
      | (cases hA : Atoi x <;> simp [hA] at h <;> rw [← h])

theorem other_LastIOErrno (si : MysqlSlaveInfo) (c : String) (v : Option String)
    (si' : MysqlSlaveInfo) (hc : c ≠ "Last_IO_Errno") (h : assignColumn si c v = some si') :
    si'.LastIOErrno = si.LastIOErrno := by
  cases v with
  | none => simp [assignColumn] at h; rw [← h]
  | some x =>
    unfold assignColumn at h
    split_ifs at h <;> first
      | contradiction
      | (cases hA : Atoi x <;> simp [hA] at h <;> rw [← h])

theorem other_LastSQLErrno (si : MysqlSlaveInfo) (c : String) (v : Option String)
    (si' : MysqlSlaveInfo) (hc : c ≠ "Last_SQL_Errno") (h : assignColumn si c v = some si') :
    si'.LastSQLErrno = si.LastSQLErrno := by
  cases v with
  | none => simp [assignColumn] at h; rw [← h]
  | some x =>
    unfold assignColumn at h
    split_ifs at h <;> first
      | contradiction
      | (cases hA : Atoi x <;> simp [hA] at h <;> rw [← h])

theorem other_LastErrno (si : MysqlSlaveInfo) (c : String) (v : Option String)
    (si' : MysqlSlaveInfo) (hc : c ≠ "Last_Errno") (h : assignColumn si c v = some si') :
    si'.LastErrno = si.LastErrno := by
  cases v with
  | none => simp [assignColumn] at h; rw [← h]
  | some x =>
    unfold assignColumn at h
    split_ifs at h <;> first
      | contradiction
      | (cases hA : Atoi x <;> simp [hA] at h <;> rw [← h])

theorem set_MasterLogFile (si : MysqlSlaveInfo) (v : String) (si' : MysqlSlaveInfo)
    (h : assignColumn si "Master_Log_File" (some v) = some si') :
    some v = some si'.MasterLogFile := by
  simp [assignColumn] at h; rw [← h]

theorem set_SlaveIORunning (si : MysqlSlaveInfo) (v : String) (si' : MysqlSlaveInfo)
    (h : assignColumn si "Slave_IO_Running" (some v) = some si') :
    some v = some si'.SlaveIORunning := by
  simp [assignColumn] at h; rw [← h]

theorem set_SlaveSQLRunning (si : MysqlSlaveInfo) (v : String) (si' : MysqlSlaveInfo)
    (h : assignColumn si "Slave_SQL_Running" (some v) = some si') :
    some v = some si'.SlaveSQLRunning := by
  simp [assignColumn] at h; rw [← h]

theorem set_SecondsBehindMaster (si : MysqlSlaveInfo) (v : String) (si' : MysqlSlaveInfo)
    (h : assignColumn si "Seconds_Behind_Master" (some v) = some si') :
    Atoi v = some si'.SecondsBehindMaster := by
  cases hA : Atoi v <;> simp [assignColumn, hA] at h
  rw [← h]

theorem set_LastIOErrno (si : MysqlSlaveInfo) (v : String) (si' : MysqlSlaveInfo)
    (h : assignColumn si "Last_IO_Errno" (some v) = some si') :
    Atoi v = some si'.LastIOErrno := by
  cases hA : Atoi v <;> simp [assignColumn, hA] at h
  rw [← h]

theorem set_LastSQLErrno (si : MysqlSlaveInfo) (v : String) (si' : MysqlSlaveInfo)
    (h : assignColumn si "Last_SQL_Errno" (some v) = some si') :
    Atoi v = some si'.LastSQLErrno := by
  cases hA : Atoi v <;> simp [assignColumn, hA] at h
  rw [← h]

/-! ## A single row -/

/-- Events of a request whose query returns one row on which the column loop
completes. -/
theorem handlerWriter_oneRow_of_columnLoop (cols : List String) (r : Row) (si : MysqlSlaveInfo)
    (h : columnLoop MysqlSlaveInfo.zero (cols.zip r.values) = some si) :
    writes (handlerWriter (Env.oneRow cols r)) =
      (if r.scanErr then ["err: row scan"] else []) ++
      (if r.iterErr then ["err: getting rows"] else []) ++ [verdict si] := by
  rw [Env.oneRow, writes_handlerWriter_ofRows]
  cases hs : r.scanErr <;> cases hi : r.iterErr <;> simp [rowLoop, h, hs, hi, writes]

/-- Claim C1: for a single row scanned without error (`rows.Scan` and
`rows.Err()` both return nil), whatever its columns, in which every recognised
column name occurs at most once and every non-NULL value of the four numeric
columns converts with `strconv.Atoi`, the complete response body is the value
of `Master_Log_File` when `Slave_IO_Running` and `Slave_SQL_Running` are
`"Yes"` and `Seconds_Behind_Master`, `Last_IO_Errno` and `Last_SQL_Errno` are
`0`, and is `"err: server not ready"` otherwise, an absent or NULL column
counting as the empty string or as `0`. -/
theorem handlerWriter_single_row_verdict (cols : List String) (values : List (Option String))
    (hone : ∀ name ∈ recognisedCols, cols.count name ≤ 1)
    (hvalid : ValidNumbers cols values) :
    body (handlerWriter (Env.oneRow cols ⟨false, values, false⟩)) =
      if textColumn cols values "Slave_IO_Running" = "Yes" ∧
          textColumn cols values "Slave_SQL_Running" = "Yes" ∧
          intColumn cols values "Seconds_Behind_Master" = 0 ∧
          intColumn cols values "Last_IO_Errno" = 0 ∧
          intColumn cols values "Last_SQL_Errno" = 0
      then textColumn cols values "Master_Log_File"
      else "err: server not ready" := by
  obtain ⟨si, hsi⟩ := columnLoop_isSome (cols.zip values) MysqlSlaveInfo.zero hvalid
  have hcount : ∀ name ∈ recognisedCols, ((cols.zip values).map Prod.fst).count name ≤ 1 :=
    fun name hn => le_trans ((map_fst_zip_sublist cols values).count_le name) (hone name hn)
  have h1 := columnLoop_field "Master_Log_File" MysqlSlaveInfo.MasterLogFile some
    other_MasterLogFile set_MasterLogFile _ _ _ (hcount _ (by decide)) hsi
  have h2 := columnLoop_field "Slave_IO_Running" MysqlSlaveInfo.SlaveIORunning some
    other_SlaveIORunning set_SlaveIORunning _ _ _ (hcount _ (by decide)) hsi
  have h3 := columnLoop_field "Slave_SQL_Running" MysqlSlaveInfo.SlaveSQLRunning some
    other_SlaveSQLRunning set_SlaveSQLRunning _ _ _ (hcount _ (by decide)) hsi
  have h4 := columnLoop_field "Seconds_Behind_Master" MysqlSlaveInfo.SecondsBehindMaster Atoi
    other_SecondsBehindMaster set_SecondsBehindMaster _ _ _ (hcount _ (by decide)) hsi
  have h5 := columnLoop_field "Last_IO_Errno" MysqlSlaveInfo.LastIOErrno Atoi
    other_LastIOErrno set_LastIOErrno _ _ _ (hcount _ (by decide)) hsi
  have h6 := columnLoop_field "Last_SQL_Errno" MysqlSlaveInfo.LastSQLErrno Atoi
    other_LastSQLErrno set_LastSQLErrno _ _ _ (hcount _ (by decide)) hsi
  have hw := handlerWriter_oneRow_of_columnLoop cols ⟨false, values, false⟩ si hsi
  simp only [Bool.false_eq_true, if_false, List.nil_append] at hw
  rw [body, hw, join_singleton]
  simp only [Option.bind_some] at h1 h2 h3
  simp only [verdict, healthy, textColumn, intColumn, columnValue, h1, h2, h3, h4, h5, h6,
    MysqlSlaveInfo.zero, Bool.and_eq_true, decide_eq_true_eq, and_assoc]

/-- Witness for C1: the healthy row of the specification yields its log file
name. -/
theorem handlerWriter_single_row_verdict_witness :
    body (handlerWriter (Env.oneRow
      ["Master_Log_File", "Slave_IO_Running", "Slave_SQL_Running", "Seconds_Behind_Master",
       "Last_IO_Errno", "Last_SQL_Errno"]
      ⟨false, [some "mysql-bin.000123", some "Yes", some "Yes", some "0", some "0", some "0"],
        false⟩)) = "mysql-bin.000123" :=
  (handlerWriter_single_row_verdict
    ["Master_Log_File", "Slave_IO_Running", "Slave_SQL_Running", "Seconds_Behind_Master",
     "Last_IO_Errno", "Last_SQL_Errno"]
    [some "mysql-bin.000123", some "Yes", some "Yes", some "0", some "0", some "0"]
    (by decide) (validNumbers_of_all _ _ (by decide))).trans (by decide)

/-! ## More than one chunk in the body -/

/-- Claim C2 at a row whose scan fails and leaves the buffer untouched: the
handler writes `"err: row scan"`, does not return, and writes the verdict
after it, so the body is none of the strings of the HTTP interface.  The same
happens with two rows read without error. -/
theorem handlerWriter_scan_error_body :
    writes (handlerWriter (Env.oneRow ["Master_Log_File", "Slave_IO_Running"]
      ⟨true, [none, none], false⟩)) = ["err: row scan", "err: server not ready"] ∧
    body (handlerWriter (Env.oneRow ["Master_Log_File", "Slave_IO_Running"]
      ⟨true, [none, none], false⟩)) = "err: row scanerr: server not ready" ∧
    body (handlerWriter (Env.oneRow ["Master_Log_File", "Slave_IO_Running"]
      ⟨true, [none, none], false⟩)) ∉ allowedBodies "" ∧
    body (handlerWriter (Env.ofRows ⟨["Master_Log_File", "Slave_IO_Running"],
      [⟨false, [some "mysql-bin.000123", some "No"], false⟩,
       ⟨false, [some "mysql-bin.000123", some "No"], false⟩]⟩)) =
      "err: server not readyerr: server not ready" := by
  refine ⟨by decide, by decide, by decide, by decide⟩

/-! ## The record across rows -/

/-- Fields left alone by the column loop over one row. -/
theorem columnLoop_keptWhenAbsent (cols : List String) (values : List (Option String))
    (prev si : MysqlSlaveInfo) (h : columnLoop prev (cols.zip values) = some si) :
    KeptWhenAbsent cols values prev si := by
  have key : ∀ name, AbsentOrNull cols values name → ∀ v, (name, some v) ∉ cols.zip values := by
    intro name ha v hv
    have := ha (name, some v) hv rfl
    simp at this
  refine ⟨fun ha => ?_, fun ha => ?_, fun ha => ?_, fun ha => ?_, fun ha => ?_, fun ha => ?_,
    fun ha => ?_⟩
  · exact columnLoop_keep _ MysqlSlaveInfo.MasterLogFile other_MasterLogFile _ _ _ (key _ ha) h
  · exact columnLoop_keep _ MysqlSlaveInfo.SlaveIORunning other_SlaveIORunning _ _ _ (key _ ha) h
  · exact columnLoop_keep _ MysqlSlaveInfo.SlaveSQLRunning other_SlaveSQLRunning _ _ _ (key _ ha) h
  · exact columnLoop_keep _ MysqlSlaveInfo.SecondsBehindMaster other_SecondsBehindMaster _ _ _
      (key _ ha) h
  · exact columnLoop_keep _ MysqlSlaveInfo.LastErrno other_LastErrno _ _ _ (key _ ha) h
  · exact columnLoop_keep _ MysqlSlaveInfo.LastIOErrno other_LastIOErrno _ _ _ (key _ ha) h
  · exact columnLoop_keep _ MysqlSlaveInfo.LastSQLErrno other_LastSQLErrno _ _ _ (key _ ha) h

/-- Records of the row loop: empty after a failed conversion, otherwise the
record of the first row followed by those of the remaining rows. -/
theorem predicateRecords_rowLoop_cons (cols : List String) (si : MysqlSlaveInfo) (r : Row)
    (rest : List Row) :
    predicateRecords (rowLoop cols si (r :: rest)) =
      match columnLoop si (cols.zip r.values) with
      | none => []
      | some si' => si' :: predicateRecords (rowLoop cols si' rest) := by
  cases h : columnLoop si (cols.zip r.values) <;>
    cases hs : r.scanErr <;> cases hi : r.iterErr <;>
    simp [rowLoop, h, hs, hi, predicateRecords]

/-- The record of the `k`-th row keeps, in every field whose column is absent
or NULL in that row, the value of the record before that row. -/
theorem rowLoop_keptWhenAbsent (cols : List String) (rows : List Row) :
    ∀ (start : MysqlSlaveInfo) (k : Nat) (r : Row) (prev si : MysqlSlaveInfo),
      rows[k]? = some r →
      (predicateRecords (rowLoop cols start rows))[k]? = some si →
      (start :: predicateRecords (rowLoop cols start rows))[k]? = some prev →
      KeptWhenAbsent cols r.values prev si := by
  induction rows with
  | nil => intro start k r prev si hr; simp at hr
  | cons r0 rest ih =>
    intro start k r prev si hr hsi hprev
    rw [predicateRecords_rowLoop_cons] at hsi hprev
    cases hcl : columnLoop start (cols.zip r0.values) with
    | none => simp [hcl] at hsi
    | some s1 =>
      simp only [hcl] at hsi hprev
      cases k with
      | zero =>
        simp at hr hsi hprev
        subst hr; subst hsi; subst hprev
        exact columnLoop_keptWhenAbsent cols _ _ _ hcl
      | succ j =>
        simp only [List.getElem?_cons_succ] at hr hsi hprev
        exact ih s1 j r prev si hr hsi hprev

/-- Counterexample to C3 as stated: two rows over the single column
`Master_Log_File`, the first with a value and the second NULL.  When the
condition is evaluated for the second row the field still holds the value of
the first row. -/
theorem recordFromRowOnly_fails :
    ¬ RecordFromRowOnly ⟨["Master_Log_File"],
      [⟨false, [some "mysql-bin.000123"], false⟩, ⟨false, [none], false⟩]⟩ := by
  intro h
  have h1 := (h 1 ⟨false, [none], false⟩
    ⟨"mysql-bin.000123", "", "", 0, 0, 0, 0⟩ (by decide) (by decide)).1 (by decide)
  exact absurd h1 (by decide)

/-- Claim C3, amended: when the health condition is evaluated for the `k`-th
row of a request, every field whose column is absent or NULL in that row holds
the value it had in the record before that row, which is the zero record for
the first row and the record on which the condition was evaluated for the
previous row otherwise. -/
theorem handlerWriter_record_carried (rs : Rows) (k : Nat) (r : Row) (prev si : MysqlSlaveInfo)
    (hr : rs.rows[k]? = some r)
    (hsi : (predicateRecords (handlerWriter (Env.ofRows rs)))[k]? = some si)
    (hprev : (MysqlSlaveInfo.zero :: predicateRecords (handlerWriter (Env.ofRows rs)))[k]? =
      some prev) :
    KeptWhenAbsent rs.cols r.values prev si := by
  rw [predicateRecords_handlerWriter_ofRows] at hsi hprev
  exact rowLoop_keptWhenAbsent rs.cols rs.rows MysqlSlaveInfo.zero k r prev si hr hsi hprev

/-- Witness for C3: in the second of two rows, whose `Master_Log_File` is
NULL, the field keeps the value of the first row. -/
theorem handlerWriter_record_carried_witness :
    KeptWhenAbsent ["Master_Log_File", "Slave_IO_Running"] [none, some "Yes"]
      ⟨"mysql-bin.000123", "No", "", 0, 0, 0, 0⟩ ⟨"mysql-bin.000123", "Yes", "", 0, 0, 0, 0⟩ :=
  handlerWriter_record_carried
    ⟨["Master_Log_File", "Slave_IO_Running"],
      [⟨false, [some "mysql-bin.000123", some "No"], false⟩,
       ⟨false, [none, some "Yes"], false⟩]⟩
    1 ⟨false, [none, some "Yes"], false⟩
    ⟨"mysql-bin.000123", "No", "", 0, 0, 0, 0⟩ ⟨"mysql-bin.000123", "Yes", "", 0, 0, 0, 0⟩
    (by decide) (by decide) (by decide)

/-! ## Last_Errno takes no part in the verdict -/

/-- The verdict does not read `LastErrno`. -/
theorem verdict_congr (s t : MysqlSlaveInfo) (h : AgreeExceptLastErrno s t) :
    verdict s = verdict t := by
  obtain ⟨a1, a2, a3, a4, a5, a6, a7⟩ := s
  obtain ⟨b1, b2, b3, b4, b5, b6, b7⟩ := t
  simp only [AgreeExceptLastErrno, MysqlSlaveInfo.mk.injEq] at h
  obtain ⟨h1, h2, h3, h4, -, h6, h7⟩ := h
  simp [verdict, healthy, h1, h2, h3, h4, h6, h7]

/-- One column of two rows that differ only in `Last_Errno`: both conversions
fail, or both succeed and the records still agree except for `LastErrno`. -/
theorem assignColumn_agree (s t : MysqlSlaveInfo) (p q : String × Option String)
    (hst : AgreeExceptLastErrno s t) (hpq : SameExceptLastErrno p q) :
    (assignColumn s p.1 p.2 = none ∧ assignColumn t q.1 q.2 = none) ∨
    ∃ s1 t1, assignColumn s p.1 p.2 = some s1 ∧ assignColumn t q.1 q.2 = some t1 ∧
      AgreeExceptLastErrno s1 t1 := by
  obtain ⟨c, a⟩ := p
  obtain ⟨d, b⟩ := q
  obtain ⟨hcd, hval⟩ := hpq
  simp only at hcd hval
  subst hcd
  obtain ⟨a1, a2, a3, a4, a5, a6, a7⟩ := s
  obtain ⟨b1, b2, b3, b4, b5, b6, b7⟩ := t
  simp only [AgreeExceptLastErrno, MysqlSlaveInfo.mk.injEq] at hst
  obtain ⟨h1, h2, h3, h4, -, h6, h7⟩ := hst
  subst h1 h2 h3 h4 h6 h7
  by_cases hc : c = "Last_Errno"
  · subst hc
    simp only [if_true] at hval
    obtain ⟨ha, hb⟩ := hval
    right
    have hset : ∀ (u : MysqlSlaveInfo) (x : Option String), okErrno x →
        ∃ n, assignColumn u "Last_Errno" x = some { u with LastErrno := n } := by
      intro u x hx
      cases x with
      | none => exact ⟨u.LastErrno, rfl⟩
      | some y =>
        obtain ⟨m, hm⟩ := Option.isSome_iff_exists.mp hx
        exact ⟨m, by simp [assignColumn, hm]⟩
    obtain ⟨n, hn⟩ := hset ⟨a1, a2, a3, a4, a5, a6, a7⟩ a ha
    obtain ⟨m, hm⟩ := hset ⟨a1, a2, a3, a4, b5, a6, a7⟩ b hb
    exact ⟨_, _, hn, hm, by simp [AgreeExceptLastErrno]⟩
  · simp only [hc, if_false] at hval
    subst hval
    cases a with
    | none => exact Or.inr ⟨_, _, rfl, rfl, by simp [AgreeExceptLastErrno]⟩
    | some x =>
      unfold assignColumn
      simp only [hc, if_false]
      split_ifs
      · exact Or.inr ⟨_, _, rfl, rfl, by simp [AgreeExceptLastErrno]⟩
      · exact Or.inr ⟨_, _, rfl, rfl, by simp [AgreeExceptLastErrno]⟩
      · exact Or.inr ⟨_, _, rfl, rfl, by simp [AgreeExceptLastErrno]⟩
      · cases hA : Atoi x with
        | none => exact Or.inl ⟨rfl, rfl⟩
        | some n => exact Or.inr ⟨_, _, rfl, rfl, by simp [AgreeExceptLastErrno]⟩
      · cases hA : Atoi x with
        | none => exact Or.inl ⟨rfl, rfl⟩
        | some n => exact Or.inr ⟨_, _, rfl, rfl, by simp [AgreeExceptLastErrno]⟩
      · cases hA : Atoi x with
        | none => exact Or.inl ⟨rfl, rfl⟩
        | some n => exact Or.inr ⟨_, _, rfl, rfl, by simp [AgreeExceptLastErrno]⟩
      · exact Or.inr ⟨_, _, rfl, rfl, by simp [AgreeExceptLastErrno]⟩

/-- The column loop over two rows that differ only in `Last_Errno`. -/
theorem columnLoop_agree (l1 l2 : List (String × Option String))
    (h : List.Forall₂ SameExceptLastErrno l1 l2) :
    ∀ s t : MysqlSlaveInfo, AgreeExceptLastErrno s t →
      (columnLoop s l1 = none ∧ columnLoop t l2 = none) ∨
      ∃ s1 t1, columnLoop s l1 = some s1 ∧ columnLoop t l2 = some t1 ∧
        AgreeExceptLastErrno s1 t1 := by
  induction h with
  | nil => intro s t hst; exact Or.inr ⟨s, t, rfl, rfl, hst⟩
  | @cons p q r1 r2 hpq _ ih =>
    intro s t hst
    obtain ⟨c, a⟩ := p
    obtain ⟨d, b⟩ := q
    rcases assignColumn_agree s t (c, a) (d, b) hst hpq with ⟨h1, h2⟩ | ⟨s1, t1, h1, h2, h3⟩
    · simp only at h1 h2
      exact Or.inl ⟨by simp [columnLoop, h1], by simp [columnLoop, h2]⟩
    · simp only at h1 h2
      simpa [columnLoop, h1, h2] using ih s1 t1 h3

/-- Claim C6: two single-row result sets, scanned without error, over the same
columns and identical except for the values of the `Last_Errno` column, both
NULL or valid integers, yield the same writes and the same response body. -/
theorem handlerWriter_ignores_LastErrno (cols : List String) (v1 v2 : List (Option String))
    (iterErr : Bool)
    (h : List.Forall₂ SameExceptLastErrno (cols.zip v1) (cols.zip v2)) :
    writes (handlerWriter (Env.oneRow cols ⟨false, v1, iterErr⟩)) =
      writes (handlerWriter (Env.oneRow cols ⟨false, v2, iterErr⟩)) ∧
    body (handlerWriter (Env.oneRow cols ⟨false, v1, iterErr⟩)) =
      body (handlerWriter (Env.oneRow cols ⟨false, v2, iterErr⟩)) := by
  have hw : writes (handlerWriter (Env.oneRow cols ⟨false, v1, iterErr⟩)) =
      writes (handlerWriter (Env.oneRow cols ⟨false, v2, iterErr⟩)) := by
    rcases columnLoop_agree _ _ h MysqlSlaveInfo.zero MysqlSlaveInfo.zero rfl with
      ⟨h1, h2⟩ | ⟨s1, t1, h1, h2, h3⟩
    · simp [Env.oneRow, writes_handlerWriter_ofRows, rowLoop, h1, h2]
    · rw [handlerWriter_oneRow_of_columnLoop cols _ s1 h1,
        handlerWriter_oneRow_of_columnLoop cols _ t1 h2, verdict_congr s1 t1 h3]
  exact ⟨hw, by rw [body, body, hw]⟩

/-- Witness for C6: a healthy row reports its log file name whether
`Last_Errno` is `0` or `1062`. -/
theorem handlerWriter_ignores_LastErrno_witness :
    body (handlerWriter (Env.oneRow
      ["Master_Log_File", "Slave_IO_Running", "Slave_SQL_Running", "Last_Errno"]
      ⟨false, [some "mysql-bin.000123", some "Yes", some "Yes", some "0"], false⟩)) =
    body (handlerWriter (Env.oneRow
      ["Master_Log_File", "Slave_IO_Running", "Slave_SQL_Running", "Last_Errno"]
      ⟨false, [some "mysql-bin.000123", some "Yes", some "Yes", some "1062"], false⟩)) :=
  (handlerWriter_ignores_LastErrno
    ["Master_Log_File", "Slave_IO_Running", "Slave_SQL_Running", "Last_Errno"]
    [some "mysql-bin.000123", some "Yes", some "Yes", some "0"]
    [some "mysql-bin.000123", some "Yes", some "Yes", some "1062"] false
    (List.Forall₂.cons (by decide) (List.Forall₂.cons (by decide) (List.Forall₂.cons (by decide)
      (List.Forall₂.cons (by decide) List.Forall₂.nil))))).2

/-! ## Unrecognised columns -/

/-- The column loop only reads the recognised columns. -/
theorem columnLoop_filter (l : List (String × Option String)) :
    ∀ si : MysqlSlaveInfo,
      columnLoop si l = columnLoop si (l.filter (fun p => decide (p.1 ∈ recognisedCols))) := by
  induction l with
  | nil => intro si; rfl
  | cons p rest ih =>
    intro si
    obtain ⟨c, v⟩ := p
    by_cases hc : c ∈ recognisedCols
    · rw [List.filter_cons_of_pos (by simpa using hc)]
      cases h : assignColumn si c v with
      | none => simp [columnLoop, h]
      | some si1 => simp only [columnLoop, h]; exact ih si1
    · rw [List.filter_cons_of_neg (by simpa using hc)]
      simp only [columnLoop, assignColumn_unrecognised si c v hc]
      exact ih si

/-- The row loop on two result sets whose rows have the same outcomes and the
same recognised columns. -/
theorem rowLoop_sameRecognised (cols1 cols2 : List String) (rows1 rows2 : List Row)
    (h : List.Forall₂ (SameRecognised cols1 cols2) rows1 rows2) :
    ∀ si : MysqlSlaveInfo, rowLoop cols1 si rows1 = rowLoop cols2 si rows2 := by
  induction h with
  | nil => intro si; rfl
  | @cons r1 r2 t1 t2 hr _ ih =>
    intro si
    obtain ⟨hs, hi, hp⟩ := hr
    have hcl : columnLoop si (cols1.zip r1.values) = columnLoop si (cols2.zip r2.values) := by
      rw [columnLoop_filter (cols1.zip r1.values), columnLoop_filter (cols2.zip r2.values)]
      exact congrArg (columnLoop si) hp
    simp only [rowLoop, hs, hi, hcl]
    cases columnLoop si (cols2.zip r2.values) with
    | none => rfl
    | some si1 => simp only [ih si1]

/-- Claim C7: two result sets whose rows correspond one to one with the same
scan and iteration outcomes and the same recognised columns and values, that
is, which differ only by unrecognised columns added, removed or changed at any
position, yield the same run of the handler and the same response body. -/
theorem handlerWriter_ignores_unrecognised (rs1 rs2 : Rows)
    (h : List.Forall₂ (SameRecognised rs1.cols rs2.cols) rs1.rows rs2.rows) :
    handlerWriter (Env.ofRows rs1) = handlerWriter (Env.ofRows rs2) ∧
    body (handlerWriter (Env.ofRows rs1)) = body (handlerWriter (Env.ofRows rs2)) := by
  have he : handlerWriter (Env.ofRows rs1) = handlerWriter (Env.ofRows rs2) := by
    simp only [handlerWriter, Env.ofRows]
    rw [rowLoop_sameRecognised rs1.cols rs2.cols rs1.rows rs2.rows h MysqlSlaveInfo.zero]
  exact ⟨he, by rw [he]⟩

/-- Witness for C7: the unrecognised column `Master_Host` is added in front,
`Relay_Log_File` is changed in the middle and `Master_Port` is removed at the
end. -/
theorem handlerWriter_ignores_unrecognised_witness :
    body (handlerWriter (Env.ofRows
      ⟨["Master_Host", "Master_Log_File", "Relay_Log_File", "Slave_IO_Running"],
       [⟨false, [some "db1", some "mysql-bin.000123", some "relay.000001", some "No"], false⟩]⟩)) =
    body (handlerWriter (Env.ofRows
      ⟨["Master_Log_File", "Relay_Log_File", "Slave_IO_Running", "Master_Port"],
       [⟨false, [some "mysql-bin.000123", none, some "No", some "3306"], false⟩]⟩)) :=
  (handlerWriter_ignores_unrecognised
    ⟨["Master_Host", "Master_Log_File", "Relay_Log_File", "Slave_IO_Running"],
     [⟨false, [some "db1", some "mysql-bin.000123", some "relay.000001", some "No"], false⟩]⟩
    ⟨["Master_Log_File", "Relay_Log_File", "Slave_IO_Running", "Master_Port"],
     [⟨false, [some "mysql-bin.000123", none, some "No", some "3306"], false⟩]⟩
    (List.Forall₂.cons ⟨rfl, rfl, by decide⟩ List.Forall₂.nil)).2

/-- Witness for C10: two rows, the first healthy and the second lagging, give
two writes. -/
theorem handlerWriter_one_write_per_row_witness :
    writes (handlerWriter (Env.ofRows
      ⟨["Master_Log_File", "Slave_IO_Running", "Slave_SQL_Running", "Seconds_Behind_Master"],
       [⟨false, [some "mysql-bin.000123", some "Yes", some "Yes", some "0"], false⟩,
        ⟨false, [some "mysql-bin.000124", some "Yes", some "Yes", some "5"], false⟩]⟩)) =
      ["mysql-bin.000123", "err: server not ready"] :=
  ((handlerWriter_one_write_per_row
    ["Master_Log_File", "Slave_IO_Running", "Slave_SQL_Running", "Seconds_Behind_Master"]
    [⟨false, [some "mysql-bin.000123", some "Yes", some "Yes", some "0"], false⟩,
     ⟨false, [some "mysql-bin.000124", some "Yes", some "Yes", some "5"], false⟩]
    (fun r hr => by
      simp only [List.mem_cons, List.mem_singleton, List.not_mem_nil, or_false] at hr
      rcases hr with rfl | rfl
      · exact ⟨rfl, rfl, validNumbers_of_all _ _ (by decide)⟩
      · exact ⟨rfl, rfl, validNumbers_of_all _ _ (by decide)⟩)).2.2.1).trans (by decide)

/-! ## Configuration file -/

/-- The shapes that `conforms` accepts. -/
theorem conforms_cases (k : String) (v : JsonValue) (h : conforms (k, v) = true) :
    (k = "address" ∧ ∃ s, v = JsonValue.string s) ∨
    (k = "mysql-dsn" ∧ ∃ s, v = JsonValue.string s) ∨
    (k = "port" ∧ ∃ lit n, v = JsonValue.number lit ∧ Atoi lit = some n) := by
  unfold conforms at h
  simp only at h
  split_ifs at h with h1 h2
  · cases v <;> simp at h
    rcases h1 with h1 | h1
    · exact Or.inl ⟨h1, _, rfl⟩
    · exact Or.inr (Or.inl ⟨h1, _, rfl⟩)
  · cases v <;> simp at h
    obtain ⟨n, hn⟩ := Option.isSome_iff_exists.mp h
    exact Or.inr (Or.inr ⟨h2, _, n, rfl, hn⟩)

/-- A key that no member carries has no value. -/
theorem lastValue_eq_none (key : String) (members : List (String × JsonValue))
    (h : key ∉ members.map Prod.fst) : lastValue key members = none := by
  induction members with
  | nil => rfl
  | cons p rest ih =>
    obtain ⟨k, v⟩ := p
    simp only [List.map_cons, List.mem_cons, not_or] at h
    have hne : ¬ k = key := fun e => h.1 e.symm
    simp [lastValue, ih h.2, hne]

/-- Decoding a conforming object over any starting configuration succeeds, and
each field ends with the last value given for its key, or with its starting
value when the key is absent. -/
theorem Decode_conforming (members : List (String × JsonValue)) :
    ∀ cfg : AppConfiguration, (∀ p ∈ members, conforms p = true) →
      ∃ cfg', Decode cfg members = some cfg' ∧
        (lastValue "address" members = none → cfg'.Address = cfg.Address) ∧
        (∀ s, lastValue "address" members = some (JsonValue.string s) → cfg'.Address = s) ∧
        (lastValue "port" members = none → cfg'.Port = cfg.Port) ∧
        (∀ lit, lastValue "port" members = some (JsonValue.number lit) →
          Atoi lit = some cfg'.Port) ∧
        (lastValue "mysql-dsn" members = none → cfg'.MysqlDSN = cfg.MysqlDSN) ∧
        (∀ s, lastValue "mysql-dsn" members = some (JsonValue.string s) → cfg'.MysqlDSN = s) := by
  induction members with
  | nil => intro cfg _; exact ⟨cfg, rfl, by simp [lastValue]⟩
  | cons p rest ih =>
    intro cfg h
    obtain ⟨k, v⟩ := p
    have hrest : ∀ q ∈ rest, conforms q = true := fun q hq => h q (List.mem_cons_of_mem _ hq)
    rcases conforms_cases k v (h (k, v) (List.mem_cons_self _ _)) with
      ⟨rfl, s, rfl⟩ | ⟨rfl, s, rfl⟩ | ⟨rfl, lit, n, rfl, hn⟩
    · obtain ⟨cfg', hd, a1, a2, p1, p2, d1, d2⟩ := ih { cfg with Address := s } hrest
      refine ⟨cfg', ?_, ?_, ?_, ?_, ?_, ?_, ?_⟩
      · have : findField "address" = some ConfigField.Address := by decide
        simp only [Decode, this, decodeField]; exact hd
      · intro hl; cases hr : lastValue "address" rest <;> simp [lastValue, hr] at hl
      · intro t hl
        cases hr : lastValue "address" rest with
        | none => simp [lastValue, hr] at hl; rw [a1 hr, ← hl]
        | some w => simp [lastValue, hr] at hl; exact a2 t (by rw [hr, hl])
      · intro hl
        cases hr : lastValue "port" rest with
        | none => exact p1 hr
        | some w => simp [lastValue, hr] at hl
      · intro t hl
        cases hr : lastValue "port" rest with
        | none => simp [lastValue, hr] at hl
        | some w => simp [lastValue, hr] at hl; exact p2 t (by rw [hr, hl])
      · intro hl
        cases hr : lastValue "mysql-dsn" rest with
        | none => exact d1 hr
        | some w => simp [lastValue, hr] at hl
      · intro t hl
        cases hr : lastValue "mysql-dsn" rest with
        | none => simp [lastValue, hr] at hl
        | some w => simp [lastValue, hr] at hl; exact d2 t (by rw [hr, hl])
    · obtain ⟨cfg', hd, a1, a2, p1, p2, d1, d2⟩ := ih { cfg with MysqlDSN := s } hrest
      refine ⟨cfg', ?_, ?_, ?_, ?_, ?_, ?_, ?_⟩
      · have : findField "mysql-dsn" = some ConfigField.MysqlDSN := by decide
        simp only [Decode, this, decodeField]; exact hd
      · intro hl
        cases hr : lastValue "address" rest with
        | none => exact a1 hr
        | some w => simp [lastValue, hr] at hl
      · intro t hl
        cases hr : lastValue "address" rest with
        | none => simp [lastValue, hr] at hl
        | some w => simp [lastValue, hr] at hl; exact a2 t (by rw [hr, hl])
      · intro hl
        cases hr : lastValue "port" rest with
        | none => exact p1 hr
        | some w => simp [lastValue, hr] at hl
      · intro t hl
        cases hr : lastValue "port" rest with
        | none => simp [lastValue, hr] at hl
        | some w => simp [lastValue, hr] at hl; exact p2 t (by rw [hr, hl])
      · intro hl; cases hr : lastValue "mysql-dsn" rest <;> simp [lastValue, hr] at hl
      · intro t hl
        cases hr : lastValue "mysql-dsn" rest with
        | none => simp [lastValue, hr] at hl; rw [d1 hr, ← hl]
        | some w => simp [lastValue, hr] at hl; exact d2 t (by rw [hr, hl])
    · obtain ⟨cfg', hd, a1, a2, p1, p2, d1, d2⟩ := ih { cfg with Port := n } hrest
      refine ⟨cfg', ?_, ?_, ?_, ?_, ?_, ?_, ?_⟩
      · have : findField "port" = some ConfigField.Port := by decide
        simp only [Decode, this, decodeField, hn, Option.map_some']; exact hd
      · intro hl
        cases hr : lastValue "address" rest with
        | none => exact a1 hr
        | some w => simp [lastValue, hr] at hl
      · intro t hl
        cases hr : lastValue "address" rest with
        | none => simp [lastValue, hr] at hl
        | some w => simp [lastValue, hr] at hl; exact a2 t (by rw [hr, hl])
      · intro hl; cases hr : lastValue "port" rest <;> simp [lastValue, hr] at hl
      · intro t hl
        cases hr : lastValue "port" rest with
        | none => simp [lastValue, hr] at hl; rw [← hl, hn, p1 hr]
        | some w => simp [lastValue, hr] at hl; exact p2 t (by rw [hr, hl])
      · intro hl
        cases hr : lastValue "mysql-dsn" rest with
        | none => exact d1 hr
        | some w => simp [lastValue, hr] at hl
      · intro t hl
        cases hr : lastValue "mysql-dsn" rest with
        | none => simp [lastValue, hr] at hl
        | some w => simp [lastValue, hr] at hl; exact d2 t (by rw [hr, hl])

/-- Claim C8: for a config file that is a JSON object whose members are among
`address` (string), `port` (integer) and `mysql-dsn` (string), loading
succeeds; each field whose key is absent keeps its built-in default
(`"127.0.0.1"`, `12345`, `"root:123456@tcp(127.0.0.1:3306)/"`), and each field
whose key is present takes the value given in the file, the last one if the key
is repeated. -/
theorem loadConfig_keeps_defaults (members : List (String × JsonValue))
    (h : ∀ p ∈ members, conforms p = true) :
    ∃ cfg, loadConfig (some members) = some cfg ∧
      ("address" ∉ members.map Prod.fst → cfg.Address = "127.0.0.1") ∧
      ("port" ∉ members.map Prod.fst → cfg.Port = 12345) ∧
      ("mysql-dsn" ∉ members.map Prod.fst →
        cfg.MysqlDSN = "root:123456@tcp(127.0.0.1:3306)/") ∧
      (∀ s, lastValue "address" members = some (JsonValue.string s) → cfg.Address = s) ∧
      (∀ lit, lastValue "port" members = some (JsonValue.number lit) →
        Atoi lit = some cfg.Port) ∧
      (∀ s, lastValue "mysql-dsn" members = some (JsonValue.string s) → cfg.MysqlDSN = s) := by
  obtain ⟨cfg, hd, a1, a2, p1, p2, d1, d2⟩ := Decode_conforming members defaultConfig h
  exact ⟨cfg, hd, fun ha => a1 (lastValue_eq_none _ _ ha), fun hp => p1 (lastValue_eq_none _ _ hp),
    fun hm => d1 (lastValue_eq_none _ _ hm), a2, p2, d2⟩

/-- Witness for C8: a file that gives only `port` changes only the port. -/
theorem loadConfig_keeps_defaults_witness :
    ∃ cfg, loadConfig (some [("port", JsonValue.number "8080")]) = some cfg ∧
      cfg.Address = "127.0.0.1" ∧ Atoi "8080" = some cfg.Port ∧
      cfg.MysqlDSN = "root:123456@tcp(127.0.0.1:3306)/" :=
  match loadConfig_keeps_defaults [("port", JsonValue.number "8080")] (by decide) with
  | ⟨cfg, hd, a1, _, d1, _, p2, _⟩ =>
    ⟨cfg, hd, a1 (by decide), p2 "8080" (by decide), d1 (by decide)⟩

/-- Inserting an unrecognised column with any value at any position of a row
does not change the recognised part of the row; read from right to left, the
same holds for removing one, and hence for changing its value. -/
theorem recognisedPart_insert (pre post : List String) (vpre vpost : List (Option String))
    (c : String) (v : Option String) (hc : c ∉ recognisedCols)
    (hlen : pre.length = vpre.length) :
    recognisedPart (pre ++ c :: post) (vpre ++ v :: vpost) =
      recognisedPart (pre ++ post) (vpre ++ vpost) := by
  unfold recognisedPart
  rw [List.zip_append hlen, List.zip_append hlen, List.filter_append, List.filter_append,
    List.zip_cons_cons, List.filter_cons_of_neg (by simpa using hc)]

end SlaveLogInfo
